import Mathlib

/-!
Verification of the `astrbot_plugin_fake_ai_watermark` plugin.

The development shallowly embeds the plugin's core data model and operations:
* `src/utils/network_utils.py` — SSRF-hardened URL validation and the
  bounded streaming download (`NetworkUtils`);
* `src/utils/file_utils.py` — magic-byte format sniffing (`FileUtils`);
* `src/core/image_processor.py` — pixel-count safety gate and the two
  watermark compositing variants (`ImageProcessor`).

Python strings are modelled as `List Char`; Python `bytes` as `List Nat`
(each entry < 256); Python machine-independent ints as `Nat`/`Int`.  The
CPython 3.11 `ipaddress` module, which `network_utils.py` delegates to, is
embedded faithfully (string parsers for IPv4/IPv6 including scope ids, and
the `is_private` / `is_loopback` / `is_link_local` network tables).
-/

namespace Watermark

/-! ## Character-list utilities (Python `str` helpers) -/

/-- `hasPre p h` : does `h` start with `p` (Python `str.startswith`). -/
def hasPre : List Char → List Char → Bool
  | [], _ => true
  | _ :: _, [] => false
  | a :: p, b :: h => a == b && hasPre p h

/-- `hasSuf s h` : does `h` end with `s` (Python `str.endswith`). -/
def hasSuf (s h : List Char) : Bool :=
  hasPre s.reverse h.reverse

/-- Split on a single separator character, Python `str.split(sep)` semantics:
`split '.' "" = [""]`, `split '.' "a..b" = ["a", "", "b"]`. -/
def splitOnChar (sep : Char) : List Char → List (List Char)
  | [] => [[]]
  | c :: rest =>
    let tail := splitOnChar sep rest
    if c == sep then [] :: tail
    else match tail with
      | [] => [[c]]
      | t :: ts => (c :: t) :: ts

/-- ASCII decimal digit test (Python's octet parser rejects non-ASCII digits). -/
def isAsciiDigit (c : Char) : Bool :=
  '0' ≤ c && c ≤ '9'

/-- ASCII hex digit test (`ipaddress._BaseV6._HEX_DIGITS`). -/
def isAsciiHexDigit (c : Char) : Bool :=
  isAsciiDigit c || ('a' ≤ c && c ≤ 'f') || ('A' ≤ c && c ≤ 'F')

/-- Numeric value of an ASCII decimal digit. -/
def digitVal (c : Char) : Nat := c.toNat - '0'.toNat

/-- Numeric value of an ASCII hex digit. -/
def hexDigitVal (c : Char) : Nat :=
  if isAsciiDigit c then c.toNat - '0'.toNat
  else if 'a' ≤ c && c ≤ 'f' then c.toNat - 'a'.toNat + 10
  else c.toNat - 'A'.toNat + 10

/-- Decimal digit string to `Nat`. -/
def decToNat (l : List Char) : Nat :=
  l.foldl (fun acc c => acc * 10 + digitVal c) 0

/-- Hex digit string to `Nat`. -/
def hexToNat (l : List Char) : Nat :=
  l.foldl (fun acc c => acc * 16 + hexDigitVal c) 0

/-- Lowercase hex rendering of a `Nat` (Python `'%x' % n`), used by the
IPv6 parser when expanding a trailing dotted-quad into two hextets. -/
def natToHex (n : Nat) : List Char :=
  (Nat.toDigits 16 n).map fun c => c.toLower

/-! ## Embedding of CPython 3.11 `ipaddress` string parsing

`network_utils.py` calls `ipaddress.ip_address` on hostname strings; the
semantics of that call decide which hostnames the SSRF guard treats as IP
literals.  The parsers below transcribe `_BaseV4._parse_octet`,
`_BaseV4._ip_int_from_string`, `_BaseV6._parse_hextet`,
`_BaseV6._ip_int_from_string` and `IPv6Address._split_scope_id`. -/

/-- `ipaddress._BaseV4._parse_octet`: nonempty, ASCII digits only, at most
3 characters, no leading zeros (except `"0"` itself), value ≤ 255. -/
def parseOctet (s : List Char) : Option Nat :=
  if s.isEmpty then none
  else if !(s.all isAsciiDigit) then none
  else if s.length > 3 then none
  else if s != ['0'] && s.headD ' ' == '0' then none
  else
    let n := decToNat s
    if n > 255 then none else some n

/-- `ipaddress._BaseV4._ip_int_from_string`: exactly four octets joined by
dots, big-endian 32-bit value. -/
def parseIPv4 (s : List Char) : Option Nat :=
  if s.isEmpty then none
  else
    let octets := splitOnChar '.' s
    if octets.length != 4 then none
    else
      (octets.mapM parseOctet).map fun vals =>
        vals.foldl (fun acc v => acc * 256 + v) 0

/-- `ipaddress._BaseV6._parse_hextet`: ASCII hex digits only, at most 4 of
them; the empty string fails (CPython's `int('', 16)` raises). -/
def parseHextet (s : List Char) : Option Nat :=
  if !(s.all isAsciiHexDigit) then none
  else if s.length > 4 then none
  else if s.isEmpty then none
  else some (hexToNat s)

/-- Fold a list of hextet strings into a shifted accumulator. -/
def foldHextets (acc : Option Nat) (parts : List (List Char)) : Option Nat :=
  parts.foldl
    (fun acc p =>
      match acc, parseHextet p with
      | some a, some v => some (a * 65536 + v)
      | _, _ => none)
    acc

/-- `ipaddress._BaseV6._ip_int_from_string` (CPython 3.11).  Assumes the
scope id has already been stripped. -/
def parseIPv6Core (s : List Char) : Option Nat :=
  if s.isEmpty then none
  else
    let parts := splitOnChar ':' s
    if parts.length < 3 then none
    else
      -- Expand an IPv4-style suffix into two hextets.
      let expanded : Option (List (List Char)) :=
        match parts.getLast? with
        | some lastPart =>
          if lastPart.contains '.' then
            match parseIPv4 lastPart with
            | some v4 =>
              some (parts.dropLast ++ [natToHex (v4 / 65536), natToHex (v4 % 65536)])
            | none => none
          else some parts
        | none => none
      match expanded with
      | none => none
      | some parts =>
        if parts.length > 9 then none
        else
          -- Find a single interior empty part (the `::`).
          let interior := (parts.drop 1).dropLast
          let empties := interior.filter List.isEmpty
          if empties.length ≥ 2 then none
          else
            let skipIndex : Option Nat :=
              if empties.length == 1 then
                some (1 + (interior.findIdx List.isEmpty))
              else none
            match skipIndex with
            | some si =>
              let partsHi := si
              let partsLo := parts.length - si - 1
              let headEmpty := (parts.headD []).isEmpty
              let lastEmpty := (parts.getLastD []).isEmpty
              let partsHi := if headEmpty then partsHi - 1 else partsHi
              if headEmpty && partsHi != 0 then none
              else
                let partsLo := if lastEmpty then partsLo - 1 else partsLo
                if lastEmpty && partsLo != 0 then none
                else
                  let skipped := 8 - (partsHi + partsLo)
                  if partsHi + partsLo + 1 > 8 then none
                  else
                    let hi := foldHextets (some 0) (parts.take partsHi)
                    let lo := foldHextets
                      ((hi.map (· * (65536 ^ skipped)))) (parts.drop (parts.length - partsLo))
                    lo
            | none =>
              if parts.length != 8 then none
              else if (parts.headD []).isEmpty then none
              else if (parts.getLastD []).isEmpty then none
              else foldHextets (some 0) parts

/-- `IPv6Address.__init__` string path: reject `/`, split the scope id
(`addr % scope`; scope must be nonempty and `%`-free), then parse. -/
def parseIPv6 (s : List Char) : Option Nat :=
  if s.contains '/' then none
  else
    let addr := s.takeWhile (· != '%')
    let rest := s.drop addr.length
    match rest with
    | [] => parseIPv6Core s
    | _ :: scope =>
      if scope.isEmpty || scope.contains '%' then none
      else parseIPv6Core addr

/-- An IP address as produced by `ipaddress.ip_address`. -/
inductive IPAddr where
  | v4 (val : Nat)
  | v6 (val : Nat)
  deriving DecidableEq, Repr

/-- `ipaddress.ip_address(str)`: try IPv4, then IPv6.
(The IPv4 constructor also rejects `/`, which `parseIPv4` does implicitly
because `/` is not a decimal digit.) -/
def parseIPAddress (s : List Char) : Option IPAddr :=
  match parseIPv4 s with
  | some v => some (.v4 v)
  | none => (parseIPv6 s).map .v6

/-! ### Address classification (`is_private` / `is_loopback` / `is_link_local`)

Network tables transcribed from CPython 3.11 `ipaddress._IPv4Constants` and
`_IPv6Constants`. -/

/-- Membership of a 32-bit value in a `base/len` IPv4 network. -/
def inNet4 (ip base len : Nat) : Bool :=
  ip / 2 ^ (32 - len) == base / 2 ^ (32 - len)

/-- Membership of a 128-bit value in a `base/len` IPv6 network. -/
def inNet6 (ip base len : Nat) : Bool :=
  ip / 2 ^ (128 - len) == base / 2 ^ (128 - len)

/-- `_IPv4Constants._private_networks`. -/
def ipv4PrivateNets : List (Nat × Nat) :=
  [ (0, 8)                                  -- 0.0.0.0/8
  , (10 * 16777216, 8)                      -- 10.0.0.0/8
  , (127 * 16777216, 8)                     -- 127.0.0.0/8
  , (169 * 16777216 + 254 * 65536, 16)      -- 169.254.0.0/16
  , (172 * 16777216 + 16 * 65536, 12)       -- 172.16.0.0/12
  , (192 * 16777216, 29)                    -- 192.0.0.0/29
  , (192 * 16777216 + 170, 31)              -- 192.0.0.170/31
  , (192 * 16777216 + 2 * 256, 24)          -- 192.0.2.0/24
  , (192 * 16777216 + 168 * 65536, 16)      -- 192.168.0.0/16
  , (198 * 16777216 + 18 * 65536, 15)       -- 198.18.0.0/15
  , (198 * 16777216 + 51 * 65536 + 100 * 256, 24) -- 198.51.100.0/24
  , (203 * 16777216 + 113 * 256, 24)        -- 203.0.113.0/24
  , (240 * 16777216, 4)                     -- 240.0.0.0/4
  , (4294967295, 32)                        -- 255.255.255.255/32
  ]

/-- `_IPv6Constants._private_networks`. -/
def ipv6PrivateNets : List (Nat × Nat) :=
  [ (1, 128)                                -- ::1/128
  , (0, 128)                                -- ::/128
  , (65535 * 4294967296, 96)                -- ::ffff:0:0/96
  , (256 <<< 112, 64)                       -- 100::/64
  , (8193 <<< 112, 23)                      -- 2001::/23
  , ((8193 <<< 112) + (2 <<< 96), 48)       -- 2001:2::/48
  , ((8193 <<< 112) + (3512 <<< 96), 32)    -- 2001:db8::/32
  , ((8193 <<< 112) + (16 <<< 96), 28)      -- 2001:10::/28
  , (64512 <<< 112, 7)                      -- fc00::/7
  , (65152 <<< 112, 10)                     -- fe80::/10
  ]

/-- `IPv4Address.is_private` / `IPv6Address.is_private`. -/
def isPrivateAddr : IPAddr → Bool
  | .v4 v => ipv4PrivateNets.any fun n => inNet4 v n.1 n.2
  | .v6 v => ipv6PrivateNets.any fun n => inNet6 v n.1 n.2

/-- `is_loopback`: IPv4 127.0.0.0/8; IPv6 `::1`. -/
def isLoopbackAddr : IPAddr → Bool
  | .v4 v => inNet4 v (127 * 16777216) 8
  | .v6 v => v == 1

/-- `is_link_local`: IPv4 169.254.0.0/16; IPv6 fe80::/10. -/
def isLinkLocalAddr : IPAddr → Bool
  | .v4 v => inNet4 v (169 * 16777216 + 254 * 65536) 16
  | .v6 v => inNet6 v (65152 <<< 112) 10

/-! ## Embedding of Python `int(str)` (decimal literal parsing)

`NetworkUtils._is_ip_format` falls back to `int(hostname)`; Python's `int`
strips surrounding whitespace, allows one sign character, and allows single
underscores between digits.  (Non-ASCII digit support is not modelled.) -/

/-- Python `str.strip()` whitespace characters (ASCII subset). -/
def isPySpace (c : Char) : Bool :=
  c == ' ' || c == '\t' || c == '\n' || c == '\r' || c == '\x0b' || c == '\x0c'

mutual

/-- Digit run of a Python decimal int literal: starts with a digit. -/
def intBody : List Char → Bool
  | [] => false
  | c :: rest => isAsciiDigit c && intBodyRest rest

/-- Continuation of a digit run: an underscore must be followed by a digit. -/
def intBodyRest : List Char → Bool
  | [] => true
  | '_' :: rest => intBody rest
  | c :: rest => isAsciiDigit c && intBodyRest rest

end

/-- Python `int(s)` for a decimal string, `none` on `ValueError`. -/
def pyInt (s : List Char) : Option Int :=
  let t := ((s.dropWhile isPySpace).reverse.dropWhile isPySpace).reverse
  match t with
  | '+' :: rest =>
    if intBody rest then some ((decToNat (rest.filter (· != '_')) : Int)) else none
  | '-' :: rest =>
    if intBody rest then some (-(decToNat (rest.filter (· != '_')) : Int)) else none
  | _ => if intBody t then some ((decToNat (t.filter (· != '_')) : Int)) else none

/-! ## Embedding of `src/utils/network_utils.py` (`NetworkUtils`) -/

/-- `NetworkUtils.DANGEROUS_PATTERNS`. -/
def DANGEROUS_PATTERNS : List (List Char) :=
  [ "localhost".toList, "127.0.0.1".toList, "0.0.0.0".toList, "::1".toList,
    "169.254.".toList, "metadata.".toList, ".internal".toList, ".local".toList,
    ".localdomain".toList,
    "10.".toList, "172.16.".toList, "172.17.".toList, "172.18.".toList,
    "172.19.".toList, "172.20.".toList, "172.21.".toList, "172.22.".toList,
    "172.23.".toList, "172.24.".toList, "172.25.".toList, "172.26.".toList,
    "172.27.".toList, "172.28.".toList, "172.29.".toList, "172.30.".toList,
    "172.31.".toList, "192.168.".toList ]

/-- `NetworkUtils._is_ip_format`: `ipaddress.ip_address(hostname)` succeeds,
or `int(hostname)` parses into `[0, 0xFFFFFFFF]` (in which range
`ipaddress.ip_address(ip_int)` always succeeds). -/
def isIpFormat (h : List Char) : Bool :=
  (parseIPAddress h).isSome ||
    (match pyInt h with
     | some n => decide (0 ≤ n) && decide (n ≤ 4294967295)
     | none => false)

/-- `NetworkUtils._is_private_ip`: parse the string with
`ipaddress.ip_address`; on `ValueError` return `False`. -/
def isPrivateIp (s : List Char) : Bool :=
  match parseIPAddress s with
  | some ip => isPrivateAddr ip || isLoopbackAddr ip || isLinkLocalAddr ip
  | none => false

/-- The denylist loop body of `NetworkUtils._is_safe_url_with_ip`
(lines 159–163): `hostname == pattern or
hostname.endswith("." + clean_pattern) or hostname.startswith(pattern)`. -/
def patternHit (h : List Char) : Bool :=
  DANGEROUS_PATTERNS.any fun p =>
    let clean := if hasPre ['.'] p then p.drop 1 else p
    h == p || hasSuf ('.' :: clean) h || hasPre p h

/-- `NetworkUtils._is_safe_url_with_ip`, over the already-parsed URL
(`urlparse` scheme and `hostname`; `urllib` itself is not part of this
repository).  The DNS lookup `_resolve_hostname` is abstracted as the
`resolver` oracle, which returns the resolved IP string or `none`.
The second component records whether DNS resolution was attempted. -/
def isSafeUrlWithIpT (scheme : List Char) (host : Option (List Char))
    (resolver : List Char → Option (List Char)) :
    Option (List Char × List Char) × Bool :=
  if !(scheme == "http".toList || scheme == "https".toList) then (none, false)
  else
    match host with
    | none => (none, false)
    | some h =>
      if h.isEmpty then (none, false)
      else if isIpFormat h then
        (if isPrivateIp h then none else some (h, h), false)
      else if hasPre ['['] h && hasSuf [']'] h && isIpFormat ((h.drop 1).dropLast) then
        (if isPrivateIp ((h.drop 1).dropLast) then none
         else some ((h.drop 1).dropLast, h), false)
      else if patternHit h then (none, false)
      else
        match resolver h with
        | none => (none, true)
        | some rip =>
          if rip.isEmpty then (none, true)
          else (if isPrivateIp rip then none else some (rip, h), true)

/-- The streaming loop of `NetworkUtils.download_image` (lines 203–211):
extend the buffer with each chunk, abort as soon as the accumulated length
exceeds `maxSize`.  Alongside the result it returns the trace of buffer
lengths observed after each `extend`. -/
def streamBodyTrace (maxSize : Nat) : List Nat → List (List Nat) → Option (List Nat) × List Nat
  | buffer, [] => (some buffer, [])
  | buffer, c :: rest =>
    let b := buffer ++ c
    if b.length > maxSize then (none, [b.length])
    else
      let r := streamBodyTrace maxSize b rest
      (r.1, b.length :: r.2)

/-- `NetworkUtils.download_image`: reject unsafe URLs before any network
I/O; otherwise issue the GET (modelled by the `status`/`chunks` oracle
describing the HTTP response), require status 200, and stream the body.
The second component records whether any network I/O (DNS resolution or
HTTP connection) was attempted. -/
def downloadImageT (scheme : List Char) (host : Option (List Char))
    (resolver : List Char → Option (List Char))
    (status : Nat) (chunks : List (List Nat)) (maxSize : Nat) :
    Option (List Nat) × Bool :=
  match isSafeUrlWithIpT scheme host resolver with
  | (none, dns) => (none, dns)
  | (some _, _) =>
    if status != 200 then (none, true)
    else ((streamBodyTrace maxSize [] chunks).1, true)

/-! ## Embedding of `src/utils/file_utils.py` (`FileUtils`) -/

/-- `FileUtils.detect_image_format_by_magic`: bytes are `List Nat`
(each < 256); returns the detected extension. -/
def detectImageFormatByMagic (data : List Nat) : Option (List Char) :=
  if data.length < 12 then none
  else if data.take 6 == [71, 73, 70, 56, 55, 97]        -- GIF87a
       || data.take 6 == [71, 73, 70, 56, 57, 97] then   -- GIF89a
    some ".gif".toList
  else if data.take 8 == [137, 80, 78, 71, 13, 10, 26, 10] then
    some ".png".toList
  else if data.take 3 == [255, 216, 255] then
    some ".jpg".toList
  else if data.take 4 == [82, 73, 70, 70]                -- RIFF
       && ((data.drop 8).take 4 == [87, 69, 66, 80]) then -- WEBP
    some ".webp".toList
  else if data.take 2 == [66, 77] then                    -- BM
    some ".bmp".toList
  else none

/-! ## Embedding of `src/core/image_processor.py` (`ImageProcessor`)

PIL images are modelled as a mode tag plus dimensions plus a row-major list
of RGBA quadruples.  An `RGB`-mode image carries alpha 255 in every pixel
(the canonical form produced by `convert("RGB")`); PIL's own byte
representation of an RGB image has no alpha band, so two images are
byte-identical exactly when these records are equal and both are canonical.
The Lanczos resampling filter is floating-point inside PIL; `resize` is
modelled as a deterministic nearest-neighbour sampler — no claim below
depends on resampled pixel values, only on the result's dimensions, on
determinism, and on which object the operation writes to. -/

/-- PIL pixel modes used by the plugin. -/
inductive PMode where
  | RGB
  | RGBA
  deriving DecidableEq, Repr

/-- An in-memory PIL image value. -/
structure Img where
  mode : PMode
  width : Nat
  height : Nat
  px : List (Nat × Nat × Nat × Nat)
  deriving DecidableEq, Repr

/-- The empty image (placeholder for out-of-range heap reads). -/
def emptyImg : Img := ⟨.RGB, 0, 0, []⟩

/-- `Image.copy()`: a new image with identical content. -/
def imgCopy (i : Img) : Img := i

/-- `Image.convert("RGB")`: drop the alpha band (alpha becomes the
canonical 255), keep the RGB samples. -/
def convertRGB (i : Img) : Img :=
  { i with mode := .RGB, px := i.px.map fun p => (p.1, p.2.1, p.2.2.1, 255) }

/-- `Image.convert("RGBA")` from an RGB image: the alpha band appears,
fully opaque.  (`RGB`-mode records already carry alpha 255.) -/
def convertRGBA (i : Img) : Img :=
  { i with mode := .RGBA }

/-- `Image.getchannel("A")`: the alpha band. -/
def getchannelA (i : Img) : List Nat :=
  i.px.map fun p => p.2.2.2

/-- `Image.putalpha(band)`: replace the alpha band in place. -/
def putalpha (i : Img) (band : List Nat) : Img :=
  { i with px := i.px.zipWith (fun p a => (p.1, p.2.1, p.2.2.1, a)) band }

/-- `Image.resize((w, h), LANCZOS)`: deterministic resampling model
(nearest-neighbour; see the section comment). -/
def imgResize (i : Img) (w h : Nat) : Img :=
  { mode := i.mode, width := w, height := h,
    px := (List.range (w * h)).map fun idx =>
      let x := idx % w
      let y := idx / w
      let sx := x * i.width / w
      let sy := y * i.height / h
      i.px.getD (sy * i.width + sx) (0, 0, 0, 0) }

/-- PIL's `DIV255` rounding helper used by `paste` blending. -/
def div255 (t : Nat) : Nat := (t + 128 + ((t + 128) / 256)) / 256

/-- Blend one channel: `DIV255(dst*(255-a) + src*a)`. -/
def blendChan (a dst src : Nat) : Nat := div255 (dst * (255 - a) + src * a)

/-- `base.paste(overlay, (x, y), mask)` where the mask is the overlay's own
alpha band (the only form the plugin uses): alpha-blend the overlay into
`base` at offset `(x, y)`, clipping at the borders.  Mutates `base` in the
source; here it returns the updated value. -/
def imgPaste (base overlay : Img) (x y : Int) : Img :=
  { base with px := (List.range (base.width * base.height)).map fun (idx : Nat) =>
      let bx := (idx % base.width : Int)
      let bY := (idx / base.width : Int)
      let p := base.px.getD idx (0, 0, 0, 0)
      let ox := bx - x
      let oy := bY - y
      if 0 ≤ ox ∧ ox < overlay.width ∧ 0 ≤ oy ∧ oy < overlay.height then
        let q := overlay.px.getD (oy.toNat * overlay.width + ox.toNat) (0, 0, 0, 0)
        let a := q.2.2.2
        (blendChan a p.1 q.1, blendChan a p.2.1 q.2.1,
         blendChan a p.2.2.1 q.2.2.1, blendChan a p.2.2.2 q.2.2.2)
      else p }

/-- `ImageProcessor.MAX_IMAGE_PIXELS`. -/
def MAX_IMAGE_PIXELS : Nat := 10000 * 10000

/-- `ImageProcessor.WARNING_PIXELS`. -/
def WARNING_PIXELS : Nat := 5000 * 5000

/-- `ImageProcessor.ALPHA_THRESHOLD`. -/
def ALPHA_THRESHOLD : Nat := 10

/-- Modelled from the spec: the repository's `constants.py` (imported as
`..constants` by `image_processor.py`) is not under `src/`, so the value of
its ` DOUBAN_ASPECT_RATIO` constant is taken from the spec's variant-B
scenario, which fixes the aspect ratio at 2:1. -/
def DOUBAN_ASPECT_RATIO : Nat := 2

/-- `ImageProcessor.check_image_safety`: first component is `is_safe`
(reject when `width*height > MAX_IMAGE_PIXELS`), second records whether the
non-fatal large-image warning is logged (`width*height > WARNING_PIXELS`,
only reached when not rejected). -/
def checkImageSafety (w h : Nat) : Bool × Bool :=
  let pixels := w * h
  if pixels > MAX_IMAGE_PIXELS then (false, false)
  else (true, pixels > WARNING_PIXELS)

/-- `ImageProcessor._apply_opacity`: threshold the alpha band — alpha above
`ALPHA_THRESHOLD` becomes `int(255 * opacity)`, the rest becomes 0.
Opacity is the exact rational the caller passes; `int(255 * opacity)` is
floor for the non-negative opacities in use. -/
def applyOpacity (watermark : Img) (opacity : ℚ) : Img :=
  let op255 := (⌊(255 : ℚ) * opacity⌋).toNat
  putalpha watermark ((getchannelA watermark).map fun v =>
    if v > ALPHA_THRESHOLD then op255 else 0)

/-- `ImageProcessor._calculate_gemini_position` (variant A): fixed margin
64 when both dimensions exceed 1024, else 32; anchor at the bottom-right
corner.  The subtraction is over ℤ — Python ints go negative when the
watermark does not fit. -/
def calculateGeminiPosition (imgWidth imgHeight : Nat) (watermark : Img) : Int × Int :=
  let margin : Nat := if imgWidth > 1024 ∧ imgHeight > 1024 then 64 else 32
  ((imgWidth : Int) - margin - watermark.width,
   (imgHeight : Int) - margin - watermark.height)

/-- `ImageProcessor.apply_gemini_watermark` (variant A). -/
def applyGeminiWatermark (image watermark : Img) (opacity : ℚ) : Option Img :=
  if !(checkImageSafety image.width image.height).1 then none
  else
    let result := imgCopy image
    let result := if result.mode != PMode.RGBA then convertRGBA result else result
    let pos := calculateGeminiPosition result.width result.height watermark
    if pos.1 < 0 ∨ pos.2 < 0 then some (convertRGB image)
    else
      let resized := imgResize watermark watermark.width watermark.height
      let resized := if resized.mode != PMode.RGBA then convertRGBA resized else resized
      let resized := applyOpacity resized opacity
      some (convertRGB (imgPaste result resized pos.1 pos.2))

/-- `ImageProcessor._calculate_doubao_size` (variant B): watermark width is
13% of the image width; height follows the fixed aspect ratio.  `int` of
the float products coincides with these ℕ-floor divisions throughout the
domain admitted by the safety gate (verified numerically for the float
constants 0.13 and 0.03). -/
def calculateDoubaoSize (imgWidth : Nat) : Nat × Nat :=
  let wmWidth := 13 * imgWidth / 100
  (wmWidth, wmWidth / DOUBAN_ASPECT_RATIO)

/-- `ImageProcessor._calculate_doubao_margin`: 3% of each dimension. -/
def calculateDoubaoMargin (imgWidth imgHeight : Nat) : Nat × Nat :=
  (3 * imgWidth / 100, 3 * imgHeight / 100)

/-- `ImageProcessor._calculate_doubao_position`: bottom-right anchor with
the proportional margins; over ℤ, may go negative. -/
def calculateDoubaoPosition (imgWidth imgHeight wmWidth wmHeight : Nat) : Int × Int :=
  ((imgWidth : Int) - (3 * imgWidth / 100 : Nat) - wmWidth,
   (imgHeight : Int) - (3 * imgHeight / 100 : Nat) - wmHeight)

/-- The unconditional compositing pipeline of
`ImageProcessor.apply_doubao_watermark` after its guards: scale the
watermark, threshold its alpha, paste at the computed position (whatever
its sign), flatten to RGB. -/
def doubaoComposite (image watermark : Img) (opacity : ℚ) : Img :=
  let result := imgCopy image
  let result := if result.mode != PMode.RGBA then convertRGBA result else result
  let size := calculateDoubaoSize image.width
  let resized := imgResize watermark size.1 size.2
  let resized := if resized.mode != PMode.RGBA then convertRGBA resized else resized
  let resized := applyOpacity resized opacity
  let pos := calculateDoubaoPosition image.width image.height size.1 size.2
  convertRGB (imgPaste result resized pos.1 pos.2)

/-- `ImageProcessor.apply_doubao_watermark` (variant B): fail when the
watermark asset is missing or the image fails the safety gate; otherwise
composite unconditionally — there is no negative-position check. -/
def applyDoubaoWatermark (image : Img) (watermark : Option Img) (opacity : ℚ) : Option Img :=
  match watermark with
  | none => none
  | some wm =>
    if !(checkImageSafety image.width image.height).1 then none
    else some (doubaoComposite image wm opacity)

/-! ## Heap-level embedding of the compositing calls

Python's PIL images are mutable objects.  To state that `apply_*_watermark`
never mutates its arguments, the two methods are re-embedded over an
explicit heap: `Image.copy`, `convert` and `resize` allocate fresh objects,
while `putalpha` (inside `_apply_opacity`) and `paste` write to the object
they are invoked on.  The embedding performs exactly the object operations
the source performs, against the objects the source performs them on. -/

/-- A heap of PIL image objects, addressed by allocation index. -/
abbrev Heap := List Img

/-- Read an object (out-of-range reads yield the empty image). -/
def hGet (h : Heap) (r : Nat) : Img := h.getD r emptyImg

/-- Allocate a fresh object, returning its reference. -/
def hAlloc (h : Heap) (i : Img) : Heap × Nat := (h ++ [i], h.length)

/-- Overwrite an existing object in place. -/
def hSet (h : Heap) (r : Nat) (i : Img) : Heap := h.set r i

/-- `ImageProcessor.apply_gemini_watermark` over the heap.  Returns the
final heap and the reference of the returned image (if any). -/
def applyGeminiHeap (h : Heap) (imgR wmR : Nat) (opacity : ℚ) : Heap × Option Nat :=
  let image := hGet h imgR
  if !(checkImageSafety image.width image.height).1 then (h, none)
  else
    let a1 := hAlloc h (imgCopy (hGet h imgR))
    let a2 := if (hGet a1.1 a1.2).mode != PMode.RGBA
              then hAlloc a1.1 (convertRGBA (hGet a1.1 a1.2)) else a1
    let resultR := a2.2
    let pos := calculateGeminiPosition (hGet a2.1 resultR).width
      (hGet a2.1 resultR).height (hGet a2.1 wmR)
    if pos.1 < 0 ∨ pos.2 < 0 then
      let a3 := hAlloc a2.1 (convertRGB (hGet a2.1 imgR))
      (a3.1, some a3.2)
    else
      let wm := hGet a2.1 wmR
      let a4 := hAlloc a2.1 (imgResize wm wm.width wm.height)
      let a5 := if (hGet a4.1 a4.2).mode != PMode.RGBA
                then hAlloc a4.1 (convertRGBA (hGet a4.1 a4.2)) else a4
      let rzR := a5.2
      let h6 := hSet a5.1 rzR (applyOpacity (hGet a5.1 rzR) opacity)
      let h7 := hSet h6 resultR (imgPaste (hGet h6 resultR) (hGet h6 rzR) pos.1 pos.2)
      let a8 := hAlloc h7 (convertRGB (hGet h7 resultR))
      (a8.1, some a8.2)

/-- `ImageProcessor.apply_doubao_watermark` over the heap (with the
watermark argument present). -/
def applyDoubaoHeap (h : Heap) (imgR wmR : Nat) (opacity : ℚ) : Heap × Option Nat :=
  let image := hGet h imgR
  if !(checkImageSafety image.width image.height).1 then (h, none)
  else
    let a1 := hAlloc h (imgCopy (hGet h imgR))
    let a2 := if (hGet a1.1 a1.2).mode != PMode.RGBA
              then hAlloc a1.1 (convertRGBA (hGet a1.1 a1.2)) else a1
    let resultR := a2.2
    let size := calculateDoubaoSize (hGet a2.1 imgR).width
    let a4 := hAlloc a2.1 (imgResize (hGet a2.1 wmR) size.1 size.2)
    let a5 := if (hGet a4.1 a4.2).mode != PMode.RGBA
              then hAlloc a4.1 (convertRGBA (hGet a4.1 a4.2)) else a4
    let rzR := a5.2
    let h6 := hSet a5.1 rzR (applyOpacity (hGet a5.1 rzR) opacity)
    let pos := calculateDoubaoPosition (hGet h6 imgR).width (hGet h6 imgR).height
      size.1 size.2
    let h7 := hSet h6 resultR (imgPaste (hGet h6 resultR) (hGet h6 rzR) pos.1 pos.2)
    let a8 := hAlloc h7 (convertRGB (hGet h7 resultR))
    (a8.1, some a8.2)

/-! ### Heap access lemmas -/

theorem hGet_append {h : Heap} {r : Nat} (l : List Img) (hr : r < h.length) :
    hGet (h ++ l) r = hGet h r :=
  List.getD_append h l emptyImg r hr

theorem hGet_append_self (h : Heap) (i : Img) : hGet (h ++ [i]) h.length = i := by
  simp [hGet, List.getD_append_right h [i] emptyImg h.length (Nat.le_refl _)]

theorem hGet_set_ne {h : Heap} {s r : Nat} (i : Img) (hne : r ≠ s) :
    hGet (hSet h s i) r = hGet h r := by
  simp [hGet, hSet, List.getD_eq_getD_get?, List.getElem?_set_ne (Ne.symm hne)]

theorem hGet_set_self {h : Heap} {r : Nat} (i : Img) (hr : r < h.length) :
    hGet (hSet h r i) r = i := by
  simp [hGet, hSet, List.getD_eq_getD_get?, List.getElem?_set_eq_of_lt _ hr]

theorem hSet_length (h : Heap) (r : Nat) (i : Img) :
    (hSet h r i).length = h.length := by
  simp [hSet]

theorem hGet_append_at (h : Heap) (l : List Img) (k : Nat) :
    hGet (h ++ l) (h.length + k) = l.getD k emptyImg := by
  have := List.getD_append_right h l emptyImg (h.length + k) (Nat.le_add_right _ _)
  simpa [hGet] using this

theorem hGet_append_at0 (h : Heap) (l : List Img) :
    hGet (h ++ l) h.length = l.getD 0 emptyImg := by
  simpa using hGet_append_at h l 0

theorem hSet_append_at (h : Heap) (l : List Img) (k : Nat) (v : Img) :
    hSet (h ++ l) (h.length + k) v = h ++ l.set k v := by
  induction h with
  | nil => simp [hSet]
  | cons a t ih =>
    simp only [hSet, List.cons_append, List.length_cons] at *
    have : t.length + 1 + k = (t.length + k) + 1 := by omega
    rw [this, List.set_cons_succ, ih]

theorem hSet_append_at0 (h : Heap) (l : List Img) (v : Img) :
    hSet (h ++ l) h.length v = h ++ l.set 0 v := by
  simpa using hSet_append_at h l 0 v

/-- The heap run of `apply_gemini_watermark` computes the pure function of
the two argument objects, only grows the heap, and leaves every
pre-existing object untouched. -/
theorem applyGeminiHeap_spec (h : Heap) (imgR wmR : Nat) (op : ℚ)
    (hi : imgR < h.length) (hw : wmR < h.length) :
    ((applyGeminiHeap h imgR wmR op).2).map (hGet (applyGeminiHeap h imgR wmR op).1)
      = applyGeminiWatermark (hGet h imgR) (hGet h wmR) op
    ∧ h.length ≤ (applyGeminiHeap h imgR wmR op).1.length
    ∧ ∀ r, r < h.length → hGet (applyGeminiHeap h imgR wmR op).1 r = hGet h r := by
  by_cases hs : (checkImageSafety (hGet h imgR).width (hGet h imgR).height).1
  case neg =>
    simp [applyGeminiHeap, applyGeminiWatermark, hs]
  case pos =>
    by_cases hm : (hGet h imgR).mode = PMode.RGBA
    all_goals by_cases hwmm : (hGet h wmR).mode = PMode.RGBA
    all_goals by_cases hneg :
      (calculateGeminiPosition (hGet h imgR).width (hGet h imgR).height (hGet h wmR)).1 < 0
      ∨ (calculateGeminiPosition (hGet h imgR).width (hGet h imgR).height (hGet h wmR)).2 < 0
    all_goals
      simp [applyGeminiHeap, applyGeminiWatermark, hs, hm, hwmm, imgCopy, hAlloc,
        hGet_append_self, hGet_append, hGet_append_at, hGet_append_at0,
        hSet_append_at, hSet_append_at0, hi, hw, hneg, convertRGBA, imgResize]
    all_goals intro r hr
    all_goals exact hGet_append _ hr

/-- A string starting with `a :: p` starts with the character `a`. -/
theorem hasPre_head {a : Char} {p h : List Char} (hp : hasPre (a :: p) h = true) :
    ∃ t, h = a :: t := by
  cases h with
  | nil => simp [hasPre] at hp
  | cons b t =>
    simp only [hasPre, Bool.and_eq_true, beq_iff_eq] at hp
    exact ⟨t, by rw [hp.1]⟩

/-- A string ending with a nonempty `s` ends with `s`'s last character. -/
theorem hasSuf_getLast {s h : List Char} (hs : hasSuf s h = true) (hne : s ≠ []) :
    h.getLast? = s.getLast? := by
  unfold hasSuf at hs
  cases hsr : s.reverse with
  | nil => exact absurd (by simpa using congrArg List.reverse hsr) hne
  | cons a p =>
    rw [hsr] at hs
    obtain ⟨t, ht⟩ := hasPre_head hs
    rw [← List.head?_reverse, ← List.head?_reverse, ht, hsr]
    rfl

/-- The heap run of `apply_doubao_watermark` computes the pure function of
the two argument objects, only grows the heap, and leaves every
pre-existing object untouched. -/
theorem applyDoubaoHeap_spec (h : Heap) (imgR wmR : Nat) (op : ℚ)
    (hi : imgR < h.length) (hw : wmR < h.length) :
    ((applyDoubaoHeap h imgR wmR op).2).map (hGet (applyDoubaoHeap h imgR wmR op).1)
      = applyDoubaoWatermark (hGet h imgR) (some (hGet h wmR)) op
    ∧ h.length ≤ (applyDoubaoHeap h imgR wmR op).1.length
    ∧ ∀ r, r < h.length → hGet (applyDoubaoHeap h imgR wmR op).1 r = hGet h r := by
  by_cases hs : (checkImageSafety (hGet h imgR).width (hGet h imgR).height).1
  case neg =>
    simp [applyDoubaoHeap, applyDoubaoWatermark, hs]
  case pos =>
    by_cases hm : (hGet h imgR).mode = PMode.RGBA
    all_goals by_cases hwmm : (hGet h wmR).mode = PMode.RGBA
    all_goals
      simp [applyDoubaoHeap, applyDoubaoWatermark, doubaoComposite, hs, hm, hwmm,
        imgCopy, hAlloc, hGet_append_self, hGet_append, hGet_append_at,
        hGet_append_at0, hSet_append_at, hSet_append_at0, hi, hw,
        convertRGBA, imgResize]
    all_goals intro r hr
    all_goals exact hGet_append _ hr

/-! ## Spec-side predicates (for the refinement claims)

These follow the wording of the specification, to be compared against the
embedded source functions.  "Suffixed by" a denylist entry is read at a
label boundary: entries written with a leading dot (`.internal`) match as
given, bare entries (`localhost`) match as `.localhost` — a host is never
a suffix-extension of a bare word (`xlocalhost`). -/

/-- The spec's forbidden IP literals: "a literal loopback, private, or
link-local IP". -/
def specForbiddenIp (h : List Char) : Bool :=
  match parseIPAddress h with
  | some ip => isPrivateAddr ip || isLoopbackAddr ip || isLinkLocalAddr ip
  | none => false

/-- The spec's denylisted-hostname clause: "a hostname equal to, prefixed
by, or suffixed by the fixed denylist entries". -/
def specPatternHit (h : List Char) : Bool :=
  DANGEROUS_PATTERNS.any fun e =>
    h == e || hasSuf (if hasPre ['.'] e then e else '.' :: e) h || hasPre e h

/-- The forbidden host set exactly as claimed: forbidden IP literals plus
denylisted hostnames. -/
def specForbiddenHost (h : List Char) : Bool :=
  specForbiddenIp h || specPatternHit h

/-- The amended forbidden host set: the denylisted-hostname clause applies
only to hosts that are not themselves IP-address-format literals (the
source checks the IP-literal branch first and never consults the denylist
for such hosts). -/
def amendedForbiddenHost (h : List Char) : Bool :=
  specForbiddenIp h || (!isIpFormat h && specPatternHit h)

/-! ### Streaming-loop lemmas (for the download size cap) -/

/-- If the total body exceeds `maxSize`, the streaming loop aborts with
`none` (assuming the loop was entered with the buffer within bounds). -/
theorem streamBodyTrace_overflow (maxSize : Nat) (buf : List Nat)
    (chunks : List (List Nat)) (hbuf : buf.length ≤ maxSize)
    (hbig : buf.length + (chunks.map List.length).sum > maxSize) :
    (streamBodyTrace maxSize buf chunks).1 = none := by
  induction chunks generalizing buf with
  | nil => simp at hbig; omega
  | cons c rest ih =>
    simp only [streamBodyTrace]
    split
    · rfl
    · next hle =>
      simp only [List.length_append] at hle
      refine ih (buf ++ c) (by simp; omega) ?_
      simp only [List.length_append, List.map_cons, List.sum_cons] at *
      omega

/-- Every buffer length reached by the streaming loop is at most
`maxSize + chunkSize` provided each chunk is at most `chunkSize` long and
the loop was entered with the buffer within bounds. -/
theorem streamBodyTrace_bound (maxSize chunkSize : Nat) (buf : List Nat)
    (chunks : List (List Nat)) (hbuf : buf.length ≤ maxSize)
    (hc : ∀ c ∈ chunks, c.length ≤ chunkSize) :
    ∀ l ∈ (streamBodyTrace maxSize buf chunks).2, l ≤ maxSize + chunkSize := by
  induction chunks generalizing buf with
  | nil => simp [streamBodyTrace]
  | cons c rest ih =>
    have hcl : c.length ≤ chunkSize := hc c (by simp)
    simp only [streamBodyTrace]
    split
    · intro l hl
      simp only [List.mem_singleton] at hl
      subst hl
      simp only [List.length_append]
      omega
    · next hle =>
      intro l hl
      simp only [List.mem_cons] at hl
      rcases hl with rfl | hl
      · simp only [List.length_append]; omega
      · exact ih (buf ++ c)
          (by simpa using Nat.not_lt.mp (by simpa using hle))
          (fun d hd => hc d (by simp [hd])) l hl

/-! ## Claim theorems -/

theorem imgCopy_eq (i : Img) : imgCopy i = i := rfl

theorem convertRGBA_width (i : Img) : (convertRGBA i).width = i.width := rfl

theorem convertRGBA_height (i : Img) : (convertRGBA i).height = i.height := rfl

theorem applyOpacity_width (i : Img) (op : ℚ) : (applyOpacity i op).width = i.width := rfl

theorem applyOpacity_height (i : Img) (op : ℚ) : (applyOpacity i op).height = i.height := rfl

theorem imgResize_width (i : Img) (w h : Nat) : (imgResize i w h).width = w := rfl

theorem imgResize_height (i : Img) (w h : Nat) : (imgResize i w h).height = h := rfl

/-- C4: the safety gate rejects exactly when `width*height` exceeds
10000×10000 and accepts otherwise; between 5000×5000 (exclusive) and the
hard ceiling it accepts while emitting the non-fatal warning; in
particular `check(10001,10000)` rejects, `check(10000,10000)` accepts,
and `check(5001,5000)` accepts with a warning. -/
theorem spec_c4_safety_gate (w h : Nat) :
    ((checkImageSafety w h).1 = false ↔ w * h > 10000 * 10000)
    ∧ ((checkImageSafety w h).2 = true ↔
        (w * h ≤ 10000 * 10000 ∧ w * h > 5000 * 5000))
    ∧ (checkImageSafety 10001 10000).1 = false
    ∧ (checkImageSafety 10000 10000).1 = true
    ∧ ((checkImageSafety 5001 5000).1 = true ∧ (checkImageSafety 5001 5000).2 = true) := by
  refine ⟨?_, ?_, by decide, by decide, by decide⟩
  · simp only [checkImageSafety, MAX_IMAGE_PIXELS]
    split <;> simp <;> omega
  · simp only [checkImageSafety, MAX_IMAGE_PIXELS, WARNING_PIXELS]
    split <;> simp <;> omega

/-- C7: under variant A (gemini) the margin is 64 when both image
dimensions exceed 1024 and 32 otherwise, the paste position is
`(W − margin − wmW, H − margin − wmH)`, the watermark is pasted at exactly
that position, and a 2000×1500 image with a 200×100 watermark yields margin
64 and position (1736, 1336). -/
theorem spec_c7_gemini_layout :
    (∀ (w h : Nat) (wm : Img), 1024 < w → 1024 < h →
        calculateGeminiPosition w h wm
          = ((w : Int) - 64 - wm.width, (h : Int) - 64 - wm.height))
    ∧ (∀ (w h : Nat) (wm : Img), ¬(1024 < w ∧ 1024 < h) →
        calculateGeminiPosition w h wm
          = ((w : Int) - 32 - wm.width, (h : Int) - 32 - wm.height))
    ∧ (∀ (img wm : Img) (op : ℚ),
        (checkImageSafety img.width img.height).1 = true →
        ¬((calculateGeminiPosition img.width img.height wm).1 < 0
          ∨ (calculateGeminiPosition img.width img.height wm).2 < 0) →
        ∃ base resized, applyGeminiWatermark img wm op
          = some (convertRGB (imgPaste base resized
              (calculateGeminiPosition img.width img.height wm).1
              (calculateGeminiPosition img.width img.height wm).2)))
    ∧ calculateGeminiPosition 2000 1500 ⟨.RGBA, 200, 100, []⟩ = (1736, 1336) := by
  refine ⟨?_, ?_, ?_, by decide⟩
  · intro w h wm hw hh
    simp [calculateGeminiPosition, hw, hh]
  · intro w h wm hcond
    simp [calculateGeminiPosition, hcond]
  · intro img wm op hs hneg
    unfold applyGeminiWatermark
    have hrw : ∀ c : Bool, (if c then convertRGBA (imgCopy img) else imgCopy img).width
        = img.width := by intro c; cases c <;> rfl
    have hrh : ∀ c : Bool, (if c then convertRGBA (imgCopy img) else imgCopy img).height
        = img.height := by intro c; cases c <;> rfl
    simp only [hs, Bool.not_true, if_false, hrw, hrh]
    rw [if_neg hneg]
    exact ⟨_, _, rfl⟩

/-- C8: under variant B (doubao) the target watermark width is
`⌊W × 0.13⌋`, the target height divides it by the aspect-ratio constant,
the margins are `⌊W × 0.03⌋` and `⌊H × 0.03⌋`, the paste position is
`(W − margin_x − wmW, H − margin_y − wmH)`, the pasted overlay has exactly
the computed size, and a 1000×800 image yields sizes (130, 65), margins
(30, 24) and position (840, 711). -/
theorem spec_c8_doubao_layout :
    (∀ w : Nat, calculateDoubaoSize w
        = (13 * w / 100, 13 * w / 100 / DOUBAN_ASPECT_RATIO))
    ∧ (∀ w h : Nat, calculateDoubaoMargin w h = (3 * w / 100, 3 * h / 100))
    ∧ (∀ w h wmW wmH : Nat,
        calculateDoubaoPosition w h wmW wmH
          = ((w : Int) - (3 * w / 100 : Nat) - wmW, (h : Int) - (3 * h / 100 : Nat) - wmH))
    ∧ (∀ (img wm : Img) (op : ℚ),
        (checkImageSafety img.width img.height).1 = true →
        ∃ base resized, applyDoubaoWatermark img (some wm) op
          = some (convertRGB (imgPaste base resized
              (calculateDoubaoPosition img.width img.height
                (calculateDoubaoSize img.width).1 (calculateDoubaoSize img.width).2).1
              (calculateDoubaoPosition img.width img.height
                (calculateDoubaoSize img.width).1 (calculateDoubaoSize img.width).2).2))
          ∧ resized.width = (calculateDoubaoSize img.width).1
          ∧ resized.height = (calculateDoubaoSize img.width).2)
    ∧ calculateDoubaoSize 1000 = (130, 65)
    ∧ calculateDoubaoMargin 1000 800 = (30, 24)
    ∧ calculateDoubaoPosition 1000 800 130 65 = (840, 711) := by
  refine ⟨fun w => rfl, fun w h => rfl, fun w h wmW wmH => rfl, ?_,
    by decide, by decide, by decide⟩
  intro img wm op hs
  unfold applyDoubaoWatermark doubaoComposite
  simp only [hs, Bool.not_true, if_false]
  refine ⟨_, _, rfl, ?_, ?_⟩
  · simp only [applyOpacity_width]
    split <;> simp [convertRGBA_width, imgResize_width]
  · simp only [applyOpacity_height]
    split <;> simp [convertRGBA_height, imgResize_height]

/-- C2: a response body strictly longer than `max_size` makes
`download_image` fail with no bytes returned, the length check runs after
every chunk (every buffer length the loop reaches is recorded in the
trace), and the buffer never holds more than `max_size + 8192` bytes. -/
theorem spec_c2_streaming_cap (maxSize : Nat) (chunks : List (List Nat))
    (hchunks : ∀ c ∈ chunks, c.length ≤ 8192)
    (hbig : (chunks.map List.length).sum > maxSize) :
    (streamBodyTrace maxSize [] chunks).1 = none
    ∧ (∀ l ∈ (streamBodyTrace maxSize [] chunks).2, l ≤ maxSize + 8192)
    ∧ (∀ (scheme : List Char) (host : Option (List Char))
        (resolver : List Char → Option (List Char)),
        (downloadImageT scheme host resolver 200 chunks maxSize).1 = none) := by
  have hnone := streamBodyTrace_overflow maxSize [] chunks (by simp) (by simpa)
  refine ⟨hnone, streamBodyTrace_bound maxSize 8192 [] chunks (by simp) hchunks, ?_⟩
  intro scheme host resolver
  unfold downloadImageT
  rcases hsafe : isSafeUrlWithIpT scheme host resolver with ⟨res, dns⟩
  cases res <;> simp [hnone]

/-- Witness for C2 at a concrete input: a 3-byte body over a 2-byte cap is
rejected. -/
theorem spec_c2_witness :
    (∀ c ∈ [[1, 2, 3]], List.length c ≤ 8192)
    ∧ (([[1, 2, 3]].map List.length).sum > 2)
    ∧ (streamBodyTrace 2 [] [[1, 2, 3]]).1 = none :=
  ⟨by decide, by decide, (spec_c2_streaming_cap 2 [[1, 2, 3]] (by decide) (by decide)).1⟩

/-- Witness for C7 at the spec's scenario input. -/
theorem spec_c7_witness :
    1024 < 2000 ∧ 1024 < 1500
    ∧ calculateGeminiPosition 2000 1500 (Img.mk .RGBA 200 100 [])
        = ((2000 : Int) - 64 - (Img.mk .RGBA 200 100 []).width,
           (1500 : Int) - 64 - (Img.mk .RGBA 200 100 []).height)
    ∧ (∃ base resized,
        applyGeminiWatermark (Img.mk .RGBA 2000 1500 []) (Img.mk .RGBA 200 100 []) (1/4)
          = some (convertRGB (imgPaste base resized
              (calculateGeminiPosition 2000 1500 (Img.mk .RGBA 200 100 [])).1
              (calculateGeminiPosition 2000 1500 (Img.mk .RGBA 200 100 [])).2))) :=
  ⟨by decide, by decide,
    spec_c7_gemini_layout.1 2000 1500 (Img.mk .RGBA 200 100 []) (by decide) (by decide),
    spec_c7_gemini_layout.2.2.1 (Img.mk .RGBA 2000 1500 []) (Img.mk .RGBA 200 100 [])
      (1/4) (by decide) (by decide)⟩

/-- Witness for C8 at the spec's scenario input. -/
theorem spec_c8_witness :
    (checkImageSafety 1000 800).1 = true
    ∧ (∃ base resized,
        applyDoubaoWatermark (Img.mk .RGB 1000 800 []) (some (Img.mk .RGBA 4 4 [])) (7/10)
          = some (convertRGB (imgPaste base resized
              (calculateDoubaoPosition 1000 800 130 65).1
              (calculateDoubaoPosition 1000 800 130 65).2))
        ∧ resized.width = 130 ∧ resized.height = 65) :=
  ⟨by decide,
    spec_c8_doubao_layout.2.2.2.1 (Img.mk .RGB 1000 800 []) (Img.mk .RGBA 4 4 [])
      (7/10) (by decide)⟩

/-- When the variant-A position is negative on either axis,
`apply_gemini_watermark` returns the input image flattened to RGB. -/
theorem applyGemini_skip (img wm : Img) (op : ℚ)
    (hs : (checkImageSafety img.width img.height).1 = true)
    (hneg : (calculateGeminiPosition img.width img.height wm).1 < 0
          ∨ (calculateGeminiPosition img.width img.height wm).2 < 0) :
    applyGeminiWatermark img wm op = some (convertRGB img) := by
  unfold applyGeminiWatermark
  have hrw : ∀ c : Bool, (if c then convertRGBA (imgCopy img) else imgCopy img).width
      = img.width := by intro c; cases c <;> rfl
  have hrh : ∀ c : Bool, (if c then convertRGBA (imgCopy img) else imgCopy img).height
      = img.height := by intro c; cases c <;> rfl
  simp only [hs, Bool.not_true, if_false, hrw, hrh]
  rw [if_pos hneg]
  rfl

/-- `convert("RGB")` is the identity on a canonical RGB-mode image (RGB
mode with the modelled alpha placeholder 255 everywhere). -/
theorem convertRGB_of_canonical (i : Img) (hm : i.mode = PMode.RGB)
    (ha : ∀ p ∈ i.px, p.2.2.2 = 255) : convertRGB i = i := by
  obtain ⟨m, w, h, px⟩ := i
  simp only [convertRGB, Img.mk.injEq, true_and] at *
  refine ⟨hm.symm, ?_⟩
  induction px with
  | nil => rfl
  | cons p t ih =>
    obtain ⟨a, b, c, d⟩ := p
    have hd : d = 255 := ha (a, b, c, d) (by simp)
    simp only [List.map_cons, List.cons.injEq]
    exact ⟨by simp [hd], ih (fun q hq => ha q (by simp [hq]))⟩

/-- C3 as stated is false: for an RGBA source whose watermark does not fit,
`apply_gemini_watermark` succeeds but returns an image that is not
byte-identical to the input (the alpha band is dropped). -/
theorem spec_c3_counterexample :
    ((calculateGeminiPosition 1 1 (Img.mk .RGBA 10 10 [])).1 < 0
      ∨ (calculateGeminiPosition 1 1 (Img.mk .RGBA 10 10 [])).2 < 0)
    ∧ (applyGeminiWatermark (Img.mk .RGBA 1 1 [(1, 2, 3, 4)])
        (Img.mk .RGBA 10 10 []) (1/4)).isSome = true
    ∧ applyGeminiWatermark (Img.mk .RGBA 1 1 [(1, 2, 3, 4)])
        (Img.mk .RGBA 10 10 []) (1/4) ≠ some (Img.mk .RGBA 1 1 [(1, 2, 3, 4)]) := by
  refine ⟨by decide, by decide, by decide⟩

/-- C3 amended: when the variant-A position is negative on either axis (and
the image passes the pixel gate), compositing is aborted with no error and
the input image is returned converted to RGB — which is pixel-identical to
the input exactly when the input is already RGB-mode. -/
theorem spec_c3_skip_returns_original (img wm : Img) (op : ℚ)
    (hs : (checkImageSafety img.width img.height).1 = true)
    (hneg : (calculateGeminiPosition img.width img.height wm).1 < 0
          ∨ (calculateGeminiPosition img.width img.height wm).2 < 0) :
    applyGeminiWatermark img wm op = some (convertRGB img)
    ∧ (img.mode = PMode.RGB → (∀ p ∈ img.px, p.2.2.2 = 255) →
        applyGeminiWatermark img wm op = some img) := by
  refine ⟨applyGemini_skip img wm op hs hneg, fun hm ha => ?_⟩
  rw [applyGemini_skip img wm op hs hneg, convertRGB_of_canonical img hm ha]

/-- Witness for the amended C3 at a concrete input: a 1×1 RGB image with a
10×10 watermark is returned unchanged. -/
theorem spec_c3_skip_witness :
    (checkImageSafety 1 1).1 = true
    ∧ (calculateGeminiPosition 1 1 (Img.mk .RGBA 10 10 [])).1 < 0
    ∧ applyGeminiWatermark (Img.mk .RGB 1 1 [(5, 6, 7, 255)])
        (Img.mk .RGBA 10 10 []) (1/4) = some (Img.mk .RGB 1 1 [(5, 6, 7, 255)]) :=
  ⟨by decide, by decide,
    (spec_c3_skip_returns_original (Img.mk .RGB 1 1 [(5, 6, 7, 255)])
      (Img.mk .RGBA 10 10 []) (1/4) (by decide) (by decide)).2 (by decide)
      (by decide)⟩

/-- C5: magic-byte sniffing is pure and total — inputs shorter than 12
bytes yield `none`; for inputs of at least 12 bytes each of the five
canonical signatures yields its format; and the result depends only on the
first 12 bytes. -/
theorem spec_c5_format_sniff (data : List Nat) :
    (data.length < 12 → detectImageFormatByMagic data = none)
    ∧ (12 ≤ data.length →
        ((data.take 6 = [71, 73, 70, 56, 55, 97] ∨ data.take 6 = [71, 73, 70, 56, 57, 97]) →
            detectImageFormatByMagic data = some ".gif".toList)
        ∧ (data.take 8 = [137, 80, 78, 71, 13, 10, 26, 10] →
            detectImageFormatByMagic data = some ".png".toList)
        ∧ (data.take 3 = [255, 216, 255] →
            detectImageFormatByMagic data = some ".jpg".toList)
        ∧ (data.take 4 = [82, 73, 70, 70] ∧ (data.drop 8).take 4 = [87, 69, 66, 80] →
            detectImageFormatByMagic data = some ".webp".toList)
        ∧ (data.take 2 = [66, 77] →
            detectImageFormatByMagic data = some ".bmp".toList))
    ∧ (∀ data2 : List Nat, data.take 12 = data2.take 12 →
        detectImageFormatByMagic data = detectImageFormatByMagic data2) := by
  refine ⟨?_, ?_, ?_⟩
  · intro hlt
    unfold detectImageFormatByMagic
    rw [if_pos hlt]
  · intro hlen
    rcases data with _ | ⟨b0, _ | ⟨b1, _ | ⟨b2, _ | ⟨b3, _ | ⟨b4, _ | ⟨b5, _ | ⟨b6, _ | ⟨b7, rest⟩⟩⟩⟩⟩⟩⟩⟩
    all_goals simp only [List.length_nil, List.length_cons] at hlen
    all_goals try omega
    refine ⟨?_, ?_, ?_, ?_, ?_⟩
    · rintro (h | h) <;>
      · obtain ⟨rfl, rfl, rfl, rfl, rfl, rfl⟩ := by simpa using h
        unfold detectImageFormatByMagic
        rw [if_neg (by simp; omega)]
        simp
    · intro h
      obtain ⟨rfl, rfl, rfl, rfl, rfl, rfl, rfl, rfl⟩ := by simpa using h
      unfold detectImageFormatByMagic
      rw [if_neg (by simp; omega)]
      simp
    · intro h
      obtain ⟨rfl, rfl, rfl⟩ := by simpa using h
      unfold detectImageFormatByMagic
      rw [if_neg (by simp; omega)]
      simp
    · rintro ⟨h, h2⟩
      obtain ⟨rfl, rfl, rfl, rfl⟩ := by simpa using h
      simp only [List.drop_succ_cons, List.drop_zero] at h2
      unfold detectImageFormatByMagic
      rw [if_neg (by simp; omega)]
      simp [h2]
    · intro h
      obtain ⟨rfl, rfl⟩ := by simpa using h
      unfold detectImageFormatByMagic
      rw [if_neg (by simp; omega)]
      simp
  · intro d2 h12
    have e6 : data.take 6 = d2.take 6 := by
      have := congrArg (List.take 6) h12
      simpa [List.take_take] using this
    have e8 : data.take 8 = d2.take 8 := by
      have := congrArg (List.take 8) h12
      simpa [List.take_take] using this
    have e3 : data.take 3 = d2.take 3 := by
      have := congrArg (List.take 3) h12
      simpa [List.take_take] using this
    have e4 : data.take 4 = d2.take 4 := by
      have := congrArg (List.take 4) h12
      simpa [List.take_take] using this
    have e2 : data.take 2 = d2.take 2 := by
      have := congrArg (List.take 2) h12
      simpa [List.take_take] using this
    have ed : (data.drop 8).take 4 = (d2.drop 8).take 4 := by
      have := congrArg (fun l => List.take 4 (List.drop 8 l)) h12
      simpa [List.drop_take, List.take_take] using this
    have elen : data.length < 12 ↔ d2.length < 12 := by
      have := congrArg List.length h12
      simp [List.length_take] at this
      omega
    unfold detectImageFormatByMagic
    rw [e6, e8, e3, e4, e2, ed]
    by_cases hl : d2.length < 12
    · rw [if_pos (elen.mpr hl), if_pos hl]
    · rw [if_neg (fun hh => hl (elen.mp hh)), if_neg hl]

/-- Witness for C5 at a concrete PNG-signature input. -/
theorem spec_c5_witness :
    12 ≤ ([137, 80, 78, 71, 13, 10, 26, 10, 0, 0, 0, 0] : List Nat).length
    ∧ ([137, 80, 78, 71, 13, 10, 26, 10, 0, 0, 0, 0] : List Nat).take 8
        = [137, 80, 78, 71, 13, 10, 26, 10]
    ∧ detectImageFormatByMagic [137, 80, 78, 71, 13, 10, 26, 10, 0, 0, 0, 0]
        = some ".png".toList :=
  ⟨by decide, by decide,
    ((spec_c5_format_sniff [137, 80, 78, 71, 13, 10, 26, 10, 0, 0, 0, 0]).2.1
      (by decide)).2.1 (by decide)⟩

/-- C10: the does-not-fit clamp exists only for variant A — variant B
composites unconditionally (no negative-position check, no skip outcome),
while variant A skips and returns the RGB-flattened original whenever the
computed position is negative on either axis. -/
theorem spec_c10_skip_asymmetry :
    (∀ (img wm : Img) (op : ℚ),
        (checkImageSafety img.width img.height).1 = true →
        applyDoubaoWatermark img (some wm) op = some (doubaoComposite img wm op))
    ∧ (∀ (img wm : Img) (op : ℚ),
        (checkImageSafety img.width img.height).1 = true →
        ((calculateGeminiPosition img.width img.height wm).1 < 0
         ∨ (calculateGeminiPosition img.width img.height wm).2 < 0) →
        applyGeminiWatermark img wm op = some (convertRGB img)) := by
  constructor
  · intro img wm op hs
    unfold applyDoubaoWatermark
    simp [hs]
  · intro img wm op hs hneg
    exact applyGemini_skip img wm op hs hneg

/-- Witness for C10 at a concrete input: a 100×5 image yields a negative
variant-B y-position, yet variant B still composites. -/
theorem spec_c10_witness :
    (checkImageSafety 100 5).1 = true
    ∧ (calculateDoubaoPosition 100 5 (calculateDoubaoSize 100).1
        (calculateDoubaoSize 100).2).2 < 0
    ∧ applyDoubaoWatermark (Img.mk .RGB 100 5 []) (some (Img.mk .RGBA 4 4 [])) (7/10)
        = some (doubaoComposite (Img.mk .RGB 100 5 []) (Img.mk .RGBA 4 4 []) (7/10)) :=
  ⟨by decide, by decide,
    spec_c10_skip_asymmetry.1 (Img.mk .RGB 100 5 []) (Img.mk .RGBA 4 4 []) (7/10)
      (by decide)⟩

/-- C9: neither compositing variant mutates the source image or the
watermark object (all writes go to freshly allocated copies), and running
the same call twice on the same objects yields identical output images. -/
theorem spec_c9_no_mutation (h : Heap) (imgR wmR : Nat) (op : ℚ)
    (hi : imgR < h.length) (hw : wmR < h.length) :
    (hGet (applyGeminiHeap h imgR wmR op).1 imgR = hGet h imgR
      ∧ hGet (applyGeminiHeap h imgR wmR op).1 wmR = hGet h wmR)
    ∧ (hGet (applyDoubaoHeap h imgR wmR op).1 imgR = hGet h imgR
      ∧ hGet (applyDoubaoHeap h imgR wmR op).1 wmR = hGet h wmR)
    ∧ ((applyGeminiHeap (applyGeminiHeap h imgR wmR op).1 imgR wmR op).2.map
          (hGet (applyGeminiHeap (applyGeminiHeap h imgR wmR op).1 imgR wmR op).1)
        = (applyGeminiHeap h imgR wmR op).2.map (hGet (applyGeminiHeap h imgR wmR op).1))
    ∧ ((applyDoubaoHeap (applyDoubaoHeap h imgR wmR op).1 imgR wmR op).2.map
          (hGet (applyDoubaoHeap (applyDoubaoHeap h imgR wmR op).1 imgR wmR op).1)
        = (applyDoubaoHeap h imgR wmR op).2.map (hGet (applyDoubaoHeap h imgR wmR op).1)) := by
  obtain ⟨geq, glen, gframe⟩ := applyGeminiHeap_spec h imgR wmR op hi hw
  obtain ⟨deq, dlen, dframe⟩ := applyDoubaoHeap_spec h imgR wmR op hi hw
  obtain ⟨geq2, _, _⟩ := applyGeminiHeap_spec (applyGeminiHeap h imgR wmR op).1 imgR wmR op
    (Nat.lt_of_lt_of_le hi glen) (Nat.lt_of_lt_of_le hw glen)
  obtain ⟨deq2, _, _⟩ := applyDoubaoHeap_spec (applyDoubaoHeap h imgR wmR op).1 imgR wmR op
    (Nat.lt_of_lt_of_le hi dlen) (Nat.lt_of_lt_of_le hw dlen)
  rw [gframe imgR hi, gframe wmR hw] at geq2
  rw [dframe imgR hi, dframe wmR hw] at deq2
  exact ⟨⟨gframe imgR hi, gframe wmR hw⟩, ⟨dframe imgR hi, dframe wmR hw⟩,
    by rw [geq2, geq], by rw [deq2, deq]⟩

/-- When the scheme is accepted, the host is nonempty, not IP-format, not a
bracketed IP literal and not denylisted, `_is_safe_url_with_ip` proceeds to
DNS resolution. -/
theorem isSafeUrl_resolves (scheme hn : List Char)
    (resolver : List Char → Option (List Char))
    (hsch : (scheme == "http".toList || scheme == "https".toList) = true)
    (hne : hn.isEmpty = false)
    (hip : isIpFormat hn = false)
    (hbr : (hasPre ['['] hn && hasSuf [']'] hn && isIpFormat ((hn.drop 1).dropLast)) = false)
    (hpat : patternHit hn = false) :
    isSafeUrlWithIpT scheme (some hn) resolver
      = (match resolver hn with
         | none => (none, true)
         | some rip =>
           if rip.isEmpty then (none, true)
           else (if isPrivateIp rip then none else some (rip, hn), true)) := by
  have hne' : ¬ hn = [] := by simpa using hne
  have hip' : ¬ isIpFormat hn = true := by simp [hip]
  have hbr' : ¬ ((hasPre ['['] hn = true ∧ hasSuf [']'] hn = true)
      ∧ isIpFormat hn.tail.dropLast = true) := by simpa using hbr
  have hpat' : ¬ patternHit hn = true := by simp [hpat]
  rcases (by simpa using hsch : scheme = "http".toList ∨ scheme = "https".toList) with rfl | rfl <;>
    · unfold isSafeUrlWithIpT
      simp [hne', hip', hbr', hpat']

/-- C6 at its failing inputs: the decimal hostname `2130706433`
(127.0.0.1) is recognised as IP-format by `_is_ip_format`, but
`_is_private_ip` fails to parse the decimal form and reports it as not
private, so the safety check declares the URL safe even though the
normalised address is the loopback; and the hex hostname `0x7f000001` is
not recognised as IP-format at all — the check treats it as an opaque name
and proceeds to DNS resolution. -/
theorem spec_c6_numeric_host_bug :
    (pyInt "2130706433".toList = some 2130706433
      ∧ isIpFormat "2130706433".toList = true
      ∧ isPrivateIp "2130706433".toList = false
      ∧ isLoopbackAddr (IPAddr.v4 2130706433) = true
      ∧ ∀ resolver, isSafeUrlWithIpT "http".toList (some "2130706433".toList) resolver
          = (some ("2130706433".toList, "2130706433".toList), false))
    ∧ (isIpFormat "0x7f000001".toList = false
      ∧ ∀ resolver,
          (isSafeUrlWithIpT "http".toList (some "0x7f000001".toList) resolver).2 = true) := by
  refine ⟨⟨by decide, by decide, by decide, by decide, fun r => rfl⟩, by decide, fun r => ?_⟩
  rw [isSafeUrl_resolves "http".toList "0x7f000001".toList r (by decide) (by decide)
    (by decide) (by decide) (by decide)]
  rcases r "0x7f000001".toList with _ | rip
  · rfl
  · simp only []
    split <;> rfl

/-- The spec-worded denylist test coincides with the embedded source loop. -/
theorem specPatternHit_eq (h : List Char) : specPatternHit h = patternHit h := rfl

/-- The spec's forbidden-IP test is exactly `_is_private_ip`. -/
theorem specForbiddenIp_eq (h : List Char) : specForbiddenIp h = isPrivateIp h := rfl

/-- A host recognised by the spec's forbidden-IP clause is IP-format. -/
theorem specForbiddenIp_ipFormat (h : List Char) (hf : specForbiddenIp h = true) :
    isIpFormat h = true := by
  unfold specForbiddenIp at hf
  unfold isIpFormat
  cases hp : parseIPAddress h
  · rw [hp] at hf
    simp at hf
  · simp [hp]

/-- A denylist-matching host is never a bracketed literal: every denylist
condition pins the first or the last character to something other than
`[` / `]`. -/
theorem specPatternHit_no_bracket (h : List Char) (hp : specPatternHit h = true) :
    (hasPre ['['] h && hasSuf [']'] h) = false := by
  cases hb : (hasPre ['['] h && hasSuf [']'] h)
  · rfl
  · exfalso
    rw [Bool.and_eq_true] at hb
    obtain ⟨hpre, hsuf⟩ := hb
    obtain ⟨t, rfl⟩ := hasPre_head hpre
    have hlast : ('[' :: t).getLast? = some ']' := by
      simpa using hasSuf_getLast hsuf (by simp)
    rw [specPatternHit, List.any_eq_true] at hp
    obtain ⟨e, he, hcond⟩ := hp
    simp only [DANGEROUS_PATTERNS, List.mem_cons, List.not_mem_nil, or_false] at he
    rcases he with rfl|rfl|rfl|rfl|rfl|rfl|rfl|rfl|rfl|rfl|rfl|rfl|rfl|rfl|rfl|rfl|rfl|rfl|rfl|rfl|rfl|rfl|rfl|rfl|rfl|rfl|rfl
    all_goals simp only [Bool.or_eq_true, or_assoc, beq_iff_eq] at hcond
    all_goals rcases hcond with hcond | hcond | hcond
    all_goals first
      | (injection hcond with h1 h2
         exact absurd h1 (by decide))
      | (have hg := hasSuf_getLast hcond (by decide)
         rw [hlast] at hg
         exact absurd hg (by decide))
      | (obtain ⟨t2, ht2⟩ := hasPre_head hcond

         injection ht2 with h1 h2
         exact absurd h1 (by decide))

/-- C1 as stated is false: the hostname `2607:f8b0::1%25foo.internal` (a
public IPv6 literal carrying a scope id, as produced by `urlparse` from
`http://[2607:f8b0::1%25foo.internal]/`) is suffixed by the denylist entry
`.internal` and hence lies in the claimed forbidden set, yet
`ipaddress.ip_address` accepts it (the scope id is legal), it is not
private, and `download_image` proceeds to the network and returns the
body. -/
theorem spec_c1_counterexample :
    specForbiddenHost "2607:f8b0::1%25foo.internal".toList = true
    ∧ downloadImageT "http".toList (some "2607:f8b0::1%25foo.internal".toList)
        (fun _ => none) 200 [[1, 2, 3]] 10
      = (some [1, 2, 3], true) := by
  constructor
  · decide
  · decide

/-- C1 amended: for every URL whose scheme is not http/https, and for every
URL whose host is a literal loopback/private/link-local IP or is not
itself an IP-address-format literal and matches the denylist (equal to,
prefixed by, or dot-suffixed by an entry), `download_image` fails with no
network I/O (no DNS resolution, no connection, no download). -/
theorem spec_c1_fetch_guard (scheme : List Char) (host : Option (List Char))
    (resolver : List Char → Option (List Char)) (status : Nat)
    (chunks : List (List Nat)) (maxSize : Nat)
    (hbad : (scheme == "http".toList || scheme == "https".toList) = false
      ∨ ∃ hn, host = some hn ∧ amendedForbiddenHost hn = true) :
    downloadImageT scheme host resolver status chunks maxSize = (none, false) := by
  suffices hsafe : isSafeUrlWithIpT scheme host resolver = (none, false) by
    unfold downloadImageT
    rw [hsafe]
  rcases hbad with hsch | ⟨hn, rfl, hforb⟩
  · unfold isSafeUrlWithIpT
    rw [if_pos (by simpa using hsch)]
  · cases hb : (scheme == "http".toList || scheme == "https".toList)
    · unfold isSafeUrlWithIpT
      rw [if_pos (by simpa using hb)]
    · have hbor : scheme = "http".toList ∨ scheme = "https".toList := by simpa using hb
      cases hemp : hn.isEmpty
      case true =>
        unfold isSafeUrlWithIpT
        rw [if_neg (by rcases hbor with rfl | rfl <;> simp)]
        simp [hemp]
      case false =>
        unfold amendedForbiddenHost at hforb
        rw [Bool.or_eq_true] at hforb
        rcases hforb with hip | hpat'
        · have h1 : isIpFormat hn = true := specForbiddenIp_ipFormat hn hip
          have h2 : isPrivateIp hn = true := by
            rw [← specForbiddenIp_eq]
            exact hip
          unfold isSafeUrlWithIpT
          rw [if_neg (by rcases hbor with rfl | rfl <;> simp)]
          simp [hemp, h1, h2]
        · rw [Bool.and_eq_true] at hpat'
          obtain ⟨hnotip, hpat⟩ := hpat'
          have hnotip' : isIpFormat hn = false := by simpa using hnotip
          have hpatc : patternHit hn = true := by
            rw [← specPatternHit_eq]
            exact hpat
          have hbrk := specPatternHit_no_bracket hn hpat
          unfold isSafeUrlWithIpT
          rw [if_neg (by rcases hbor with rfl | rfl <;> simp)]
          simp [hemp, hnotip', hpatc, hbrk]

/-- Witness for the amended C1 at a concrete input: `http://localhost/…`
is rejected with no network I/O, for every resolver and HTTP response. -/
theorem spec_c1_fetch_guard_witness :
    amendedForbiddenHost "localhost".toList = true
    ∧ downloadImageT "http".toList (some "localhost".toList)
        (fun _ => some "8.8.8.8".toList) 200 [[1, 2, 3]] 10 = (none, false) :=
  ⟨by decide,
    spec_c1_fetch_guard "http".toList (some "localhost".toList)
      (fun _ => some "8.8.8.8".toList) 200 [[1, 2, 3]] 10
      (Or.inr ⟨"localhost".toList, rfl, by decide⟩)⟩

/-- Witness for C9 at a concrete two-object heap. -/
theorem spec_c9_witness :
    (0 < ([Img.mk .RGB 1 1 [(1, 2, 3, 255)], Img.mk .RGBA 1 1 [(4, 4, 4, 200)]] : Heap).length)
    ∧ (1 < ([Img.mk .RGB 1 1 [(1, 2, 3, 255)], Img.mk .RGBA 1 1 [(4, 4, 4, 200)]] : Heap).length)
    ∧ hGet (applyGeminiHeap
        [Img.mk .RGB 1 1 [(1, 2, 3, 255)], Img.mk .RGBA 1 1 [(4, 4, 4, 200)]] 0 1 (1/4)).1 0
      = hGet [Img.mk .RGB 1 1 [(1, 2, 3, 255)], Img.mk .RGBA 1 1 [(4, 4, 4, 200)]] 0 :=
  ⟨by decide, by decide,
    (spec_c9_no_mutation
      [Img.mk .RGB 1 1 [(1, 2, 3, 255)], Img.mk .RGBA 1 1 [(4, 4, 4, 200)]] 0 1 (1/4)
      (by decide) (by decide)).1.1⟩

end Watermark
